import Mathlib

/-!
Verification of the event-bridging core in src/extension/clib/extension.c
(luakit web-extension side).

The C file connects the host WebKit signal "page-created" to a Lua
singleton object.  Its observable behaviour is captured by a shallow
embedding: a state record holding the Lua registry, the global table,
the Lua value stack, the deferred-event queue (queued_emissions, a
GPtrArray pointer that is NULL after the flush), and a log of the
signal emissions performed so far.  Each C function becomes a Lean
function on that state; a fatal Lua error (luaH_checkudata on a wrong
value) is modelled as returning none.
-/

set_option autoImplicit false

/-- Opaque native page handle (a WebKitWebPage pointer), identified by
its address. -/
abbrev WebPage := Nat

/-- Values of the embedded scripting runtime that this core manipulates. -/
inductive LuaValue where
  | nilv
  | table
  | extensionObj (id : Nat)
  | pageObj (page : WebPage)
  | handlerFn (k : Nat)
  | other (tag : Nat)
  deriving Repr, DecidableEq

/-- Names in the Lua global table; the core only ever uses the
well-known name under which the singleton is registered. -/
inductive GName where
  | extensionG
  | otherG (n : Nat)
  deriving Repr, DecidableEq

/-- State of the embedding: the Lua registry (keyed by integer refs),
the global table, the durable reference extension_ref, allocation
counters for fresh refs and fresh object identities, the deferred
queue queued_emissions (none models the NULL pointer), the Lua value
stack, the number of listeners bound to the page-created signal, the
log of performed signal emissions (target object id, payload), and
whether page_created_cb has been connected to the host signal. -/
structure SysState where
  registry : List (Nat × LuaValue)
  globals : List (GName × LuaValue)
  extension_ref : Nat
  nextRef : Nat
  nextId : Nat
  queued_emissions : Option (List WebPage)
  stack : List LuaValue
  listeners : Nat
  emissions : List (Nat × WebPage)
  connected : Bool
  deriving Repr, DecidableEq

/-- Lookup in the registry (lua_rawgeti on LUA_REGISTRYINDEX). -/
def registryGet (reg : List (Nat × LuaValue)) (k : Nat) : Option LuaValue :=
  (reg.find? (fun e => decide (e.1 = k))).map Prod.snd

/-- Lookup in the global table (lua_getglobal). -/
def globalsGet (g : List (GName × LuaValue)) (n : GName) : Option LuaValue :=
  (g.find? (fun e => decide (e.1 = n))).map Prod.snd

/-- Stack effect of the handler-dispatch loop inside
luaH_object_emit_signal: for each of the n bound listeners the loop
pushes the handler function together with a copy of the object and of
the one argument, and the call consumes all three values while
returning zero results, so each iteration has net stack effect zero. -/
def dispatchLoop (obj arg : LuaValue) : Nat → List LuaValue → List LuaValue
  | 0, stk => stk
  | n + 1, stk => dispatchLoop obj arg n ((arg :: obj :: LuaValue.handlerFn n :: stk).drop 3)

/-- Model of luaH_object_emit_signal(L, -2, "page-created", 1, 0):
the object sits at stack index -2 and the single argument on top;
the signal is dispatched to every bound listener and finally the
nargs = 1 argument is popped while nret = 0 results are pushed.
The emission is recorded in the log as (target object id, payload). -/
def luaH_object_emit_signal (targetId : Nat) (page : WebPage) (s : SysState) : SysState :=
  let arg := s.stack.headD LuaValue.nilv
  let obj := (s.stack.drop 1).headD LuaValue.nilv
  { s with
    stack := (dispatchLoop obj arg s.listeners s.stack).drop 1,
    emissions := s.emissions ++ [(targetId, page)] }

/-- Model of emit_page_created_signal: lua_rawgeti pushes the registry
slot extension_ref; luaH_checkudata(L, -1, extension_class address)
raises a fatal Lua error (modelled as none) unless the slot holds an
object of the extension class; luaH_page_from_web_page pushes the
wrapped page; luaH_object_emit_signal emits with one argument and zero
results; the final lua_pop(L, 1) removes the extension object. -/
def emit_page_created_signal (web_page : WebPage) (s : SysState) : Option SysState :=
  match registryGet s.registry s.extension_ref with
  | some (LuaValue.extensionObj i) =>
      let s1 := { s with stack := LuaValue.extensionObj i :: s.stack }
      let s2 := { s1 with stack := LuaValue.pageObj web_page :: s1.stack }
      let s3 := luaH_object_emit_signal i web_page s2
      some { s3 with stack := s3.stack.drop 1 }
  | _ => none

/-- Model of page_created_cb: if queued_emissions is non-NULL the
payload is appended to its tail via g_ptr_array_add, otherwise
emit_page_created_signal is invoked immediately. -/
def page_created_cb (web_page : WebPage) (s : SysState) : Option SysState :=
  match s.queued_emissions with
  | some q => some { s with queued_emissions := some (q ++ [web_page]) }
  | none => emit_page_created_signal web_page s

/-- The g_ptr_array_foreach over the queue: emit each stored payload in
index order (FIFO), threading the fatal-error possibility. -/
def emitList : List WebPage → SysState → Option SysState
  | [], s => some s
  | p :: ps, s => (emit_page_created_signal p s).bind (emitList ps)

/-- Model of extension_class_emit_pending_signals: when the queue is
non-NULL, g_ptr_array_foreach applies emit_page_created_signal to each
element in order, g_ptr_array_free releases the storage, and the
pointer is set to NULL.  When the pointer is already NULL, both GLib
calls hit their g_return_if_fail argument check and return without
touching anything, and the final assignment stores NULL again, so the
call is a no-op. -/
def extension_class_emit_pending_signals (s : SysState) : Option SysState :=
  match s.queued_emissions with
  | some q => (emitList q s).map (fun t => { t with queued_emissions := none })
  | none => some s

/-- The statements of extension_class_setup, in source order. -/
inductive SetupStep where
  | classSetup
  | queueNew
  | extensionNew
  | setGlobalExt
  | getGlobalExt
  | refExtension
  | connectSignal
  deriving Repr, DecidableEq

/-- Effect of one setup statement.  luaH_class_setup registers the
class with the runtime object system (an external collaborator, no
modelled state).  g_ptr_array_sized_new creates the empty queue.
luaH_extension_new builds a fresh table, constructs the singleton from
it and leaves only the singleton on the stack.  lua_setglobal binds the
top of stack under the well-known name; lua_getglobal pushes that
binding back; luaL_ref moves the top of stack into a fresh registry
slot recorded in extension_ref; g_signal_connect attaches
page_created_cb to the host signal. -/
def runSetupStep : SetupStep → SysState → SysState
  | SetupStep.classSetup, s => s
  | SetupStep.queueNew, s => { s with queued_emissions := some [] }
  | SetupStep.extensionNew, s =>
      { s with stack := LuaValue.extensionObj s.nextId :: s.stack, nextId := s.nextId + 1 }
  | SetupStep.setGlobalExt, s =>
      { s with globals := (GName.extensionG, s.stack.headD LuaValue.nilv) :: s.globals,
               stack := s.stack.drop 1 }
  | SetupStep.getGlobalExt, s =>
      { s with stack := (globalsGet s.globals GName.extensionG).getD LuaValue.nilv :: s.stack }
  | SetupStep.refExtension, s =>
      { s with registry := (s.nextRef, s.stack.headD LuaValue.nilv) :: s.registry,
               extension_ref := s.nextRef, nextRef := s.nextRef + 1,
               stack := s.stack.drop 1 }
  | SetupStep.connectSignal, s => { s with connected := true }

/-- The statement order of the body of extension_class_setup. -/
def setupOrder : List SetupStep :=
  [SetupStep.classSetup, SetupStep.queueNew, SetupStep.extensionNew,
   SetupStep.setGlobalExt, SetupStep.getGlobalExt, SetupStep.refExtension,
   SetupStep.connectSignal]

/-- Model of extension_class_setup: run its statements in order. -/
def extension_class_setup (s : SysState) : SysState :=
  setupOrder.foldl (fun t st => runSetupStep st t) s

/-- State of the web process before extension_class_setup runs: the C
globals queued_emissions and extension_ref are zero-initialised, the
Lua state is fresh, and n listeners will be bound to the signal by the
loaded configuration. -/
def initState (n : Nat) : SysState :=
  { registry := [], globals := [], extension_ref := 0, nextRef := 0,
    nextId := 0, queued_emissions := none, stack := [], listeners := n,
    emissions := [], connected := false }

/-- Events that can reach the core after setup: the host fires the
page-created callback with a payload, the embedder calls the flush
exactly when it chooses, and user scripting code may rebind any global
name (it has no access to the registry slot). -/
inductive Act where
  | fire (p : WebPage)
  | flush
  | setG (n : GName) (v : LuaValue)
  deriving Repr, DecidableEq

/-- Effect of one action on the state. -/
def runAct : Act → SysState → Option SysState
  | Act.fire p, s => page_created_cb p s
  | Act.flush, s => extension_class_emit_pending_signals s
  | Act.setG n v, s => some { s with globals := (n, v) :: s.globals }

/-- Run a sequence of actions, stopping at a fatal error. -/
def runTrace : List Act → SysState → Option SysState
  | [], s => some s
  | a :: rest, s => (runAct a s).bind (runTrace rest)

/-- The identity of the extension object held in the registry slot
extension_ref, when that slot holds one. -/
def slotId (s : SysState) : Option Nat :=
  match registryGet s.registry s.extension_ref with
  | some (LuaValue.extensionObj i) => some i
  | _ => none

/-- The sequence of payloads observed by every bound listener, in
observation order: emissions are synchronous and single-threaded, so
listeners observe them in the order they were performed. -/
def observedPayloads (s : SysState) : List WebPage :=
  s.emissions.map Prod.snd

/-- The state of the web process right after extension_class_setup,
with n bound listeners; used as concrete input by witnesses. -/
def postSetup (n : Nat) : SysState :=
  extension_class_setup (initState n)

/-! ### Helper lemmas -/

/-- Each handler invocation pushes exactly what its call consumes, so
the dispatch loop leaves the stack unchanged for any listener count. -/
theorem dispatchLoop_eq (obj arg : LuaValue) :
    ∀ (n : Nat) (stk : List LuaValue), dispatchLoop obj arg n stk = stk := by
  intro n
  induction n with
  | zero => intro stk; rfl
  | succ m ih => intro stk; simpa [dispatchLoop] using ih stk

/-- Characterisation of emit_page_created_signal: it fails fatally
when the registry slot does not hold an extension object, and
otherwise only appends one record to the emission log, every other
field (the stack included) being restored. -/
theorem emit_eq (p : WebPage) (s : SysState) :
    emit_page_created_signal p s =
      match slotId s with
      | some i => some { s with emissions := s.emissions ++ [(i, p)] }
      | none => none := by
  cases s with
  | mk reg g er nr ni q stk l em c =>
    unfold emit_page_created_signal slotId luaH_object_emit_signal
    cases hreg : registryGet reg er with
    | none => rfl
    | some v =>
      cases v <;> simp [dispatchLoop_eq]

/-- Success behaviour of emit_page_created_signal: when the registry
slot holds the extension object i, the call succeeds and its only
effect is appending (i, p) to the emission log. -/
theorem emit_of_slot (p : WebPage) (s : SysState) (i : Nat) (h : slotId s = some i) :
    emit_page_created_signal p s = some { s with emissions := s.emissions ++ [(i, p)] } := by
  rw [emit_eq, h]

/-- Failure behaviour of emit_page_created_signal: when the registry
slot does not hold an extension object, the luaH_checkudata assertion
fails fatally. -/
theorem emit_of_no_slot (p : WebPage) (s : SysState) (h : slotId s = none) :
    emit_page_created_signal p s = none := by
  rw [emit_eq, h]

/-- Buffering branch of page_created_cb: with the queue present the
payload is appended to its tail and nothing else changes. -/
theorem cb_buffer (p : WebPage) (s : SysState) (q : List WebPage)
    (h : s.queued_emissions = some q) :
    page_created_cb p s = some { s with queued_emissions := some (q ++ [p]) } := by
  simp [page_created_cb, h]

/-- Direct branch of page_created_cb: with the queue pointer NULL the
callback is exactly an emit_page_created_signal call. -/
theorem cb_direct (p : WebPage) (s : SysState) (h : s.queued_emissions = none) :
    page_created_cb p s = emit_page_created_signal p s := by
  simp [page_created_cb, h]

/-- slotId only looks at the registry and the durable reference. -/
theorem slotId_congr (s t : SysState) (h1 : t.registry = s.registry)
    (h2 : t.extension_ref = s.extension_ref) : slotId t = slotId s := by
  simp [slotId, h1, h2]

/-- Draining a list of payloads when the slot holds the singleton i:
all of them are emitted, in list order, and nothing else changes. -/
theorem emitList_eq (i : Nat) :
    ∀ (ps : List WebPage) (s : SysState), slotId s = some i →
    emitList ps s = some { s with emissions := s.emissions ++ ps.map (fun p => (i, p)) } := by
  intro ps
  induction ps with
  | nil => intro s h; simp [emitList]
  | cons p rest ih =>
    intro s h
    rw [emitList, emit_of_slot p s i h, Option.some_bind]
    rw [ih { s with emissions := s.emissions ++ [(i, p)] } h]
    simp

/-- Flush on a live queue: every queued payload is emitted in FIFO
order against the singleton i, the storage is released and the pointer
set to NULL. -/
theorem flush_eq (s : SysState) (q : List WebPage) (i : Nat)
    (hq : s.queued_emissions = some q) (hi : slotId s = some i) :
    extension_class_emit_pending_signals s =
      some { s with queued_emissions := none,
                    emissions := s.emissions ++ q.map (fun p => (i, p)) } := by
  simp [extension_class_emit_pending_signals, hq, emitList_eq i q s hi]

/-- Flush on a NULL queue pointer: the GLib argument checks make both
calls return immediately and the state is unchanged. -/
theorem flush_drained (s : SysState) (h : s.queued_emissions = none) :
    extension_class_emit_pending_signals s = some s := by
  simp [extension_class_emit_pending_signals, h]

/-- Firing a sequence of events while the queue exists appends them to
its tail in order, with no emission. -/
theorem fires_buffered :
    ∀ (ps : List WebPage) (s : SysState) (q : List WebPage),
    s.queued_emissions = some q →
    runTrace (ps.map Act.fire) s = some { s with queued_emissions := some (q ++ ps) } := by
  intro ps
  induction ps with
  | nil =>
    intro s q h
    simp [runTrace, ← h]
  | cons p rest ih =>
    intro s q h
    rw [List.map_cons, runTrace, runAct, cb_buffer p s q h, Option.some_bind]
    rw [ih { s with queued_emissions := some (q ++ [p]) } (q ++ [p]) rfl]
    simp

/-- Firing a sequence of events in the direct state emits each of them
immediately, in order, against the singleton i. -/
theorem fires_direct (i : Nat) :
    ∀ (ps : List WebPage) (s : SysState),
    s.queued_emissions = none → slotId s = some i →
    runTrace (ps.map Act.fire) s =
      some { s with emissions := s.emissions ++ ps.map (fun p => (i, p)) } := by
  intro ps
  induction ps with
  | nil => intro s hq hi; simp [runTrace]
  | cons p rest ih =>
    intro s hq hi
    rw [List.map_cons, runTrace, runAct, cb_direct p s hq, emit_of_slot p s i hi,
      Option.some_bind]
    rw [ih { s with emissions := s.emissions ++ [(i, p)] } hq hi]
    simp

/-- Splitting a trace. -/
theorem runTrace_append :
    ∀ (xs ys : List Act) (s : SysState),
    runTrace (xs ++ ys) s = (runTrace xs s).bind (runTrace ys) := by
  intro xs
  induction xs with
  | nil => intro ys s; simp [runTrace]
  | cons a rest ih =>
    intro ys s
    rw [List.cons_append, runTrace, runTrace]
    cases runAct a s with
    | none => simp
    | some t => simp [ih]

/-- No single action touches the registry or the durable reference;
once the queue pointer is NULL no action recreates it; and every
emission record an action adds carries the singleton identity held in
the registry slot. -/
theorem runAct_preserves (a : Act) (s s' : SysState) (h : runAct a s = some s') :
    s'.registry = s.registry ∧ s'.extension_ref = s.extension_ref ∧
    (s.queued_emissions = none → s'.queued_emissions = none) ∧
    (∀ e ∈ s'.emissions, e ∈ s.emissions ∨ slotId s = some e.1) := by
  cases a with
  | fire p =>
    cases hq : s.queued_emissions with
    | some q =>
      rw [runAct, cb_buffer p s q hq] at h
      cases h
      refine ⟨rfl, rfl, ?_, ?_⟩
      · intro h0
        exact Option.noConfusion h0
      · intro e he; exact Or.inl he
    | none =>
      rw [runAct, cb_direct p s hq, emit_eq] at h
      cases hs : slotId s with
      | none => rw [hs] at h; cases h
      | some i =>
        rw [hs] at h
        cases h
        refine ⟨rfl, rfl, fun _ => hq, ?_⟩
        intro e he
        rcases List.mem_append.mp he with h1 | h1
        · exact Or.inl h1
        · right
          rw [List.mem_singleton.mp h1]
  | flush =>
    cases hq : s.queued_emissions with
    | none =>
      rw [runAct, flush_drained s hq] at h
      cases h
      exact ⟨rfl, rfl, fun _ => hq, fun e he => Or.inl he⟩
    | some q =>
      cases hs : slotId s with
      | some i =>
        rw [runAct, flush_eq s q i hq hs] at h
        cases h
        refine ⟨rfl, rfl, fun _ => rfl, ?_⟩
        intro e he
        rcases List.mem_append.mp he with h1 | h1
        · exact Or.inl h1
        · right
          rcases List.mem_map.mp h1 with ⟨p, _, hp⟩
          rw [← hp]
      | none =>
        cases q with
        | nil =>
          rw [runAct] at h
          simp [extension_class_emit_pending_signals, hq, emitList] at h
          rw [← h]
          exact ⟨rfl, rfl, fun _ => rfl, fun e he => Or.inl he⟩
        | cons p rest =>
          rw [runAct] at h
          simp [extension_class_emit_pending_signals, hq, emitList,
            emit_of_no_slot p s hs] at h
  | setG n v =>
    rw [runAct] at h
    cases h
    exact ⟨rfl, rfl, fun h0 => h0, fun e he => Or.inl he⟩

/-- Trace-level invariant: over any sequence of actions the registry
and the durable reference are unchanged, a NULL queue pointer stays
NULL, and every emission present at the end either predates the trace
or targets the singleton held in the registry slot. -/
theorem runTrace_preserves :
    ∀ (acts : List Act) (s s' : SysState), runTrace acts s = some s' →
    s'.registry = s.registry ∧ s'.extension_ref = s.extension_ref ∧
    (s.queued_emissions = none → s'.queued_emissions = none) ∧
    (∀ e ∈ s'.emissions, e ∈ s.emissions ∨ slotId s = some e.1) := by
  intro acts
  induction acts with
  | nil =>
    intro s s' h
    cases h
    exact ⟨rfl, rfl, fun h0 => h0, fun e he => Or.inl he⟩
  | cons a rest ih =>
    intro s s' h
    rw [runTrace] at h
    cases ha : runAct a s with
    | none => rw [ha] at h; cases h
    | some t =>
      rw [ha, Option.some_bind] at h
      obtain ⟨hr1, he1, hq1, hm1⟩ := runAct_preserves a s t ha
      obtain ⟨hr2, he2, hq2, hm2⟩ := ih t s' h
      refine ⟨hr2.trans hr1, he2.trans he1, fun h0 => hq2 (hq1 h0), ?_⟩
      intro e he
      rcases hm2 e he with h1 | h1
      · exact hm1 e h1
      · exact Or.inr ((slotId_congr s t hr1 he1).symm.trans h1)

/-- extension_class_setup computed on the initial state: the queue
exists and is empty, exactly one extension object (identity 0) was
allocated, it is bound to the well-known global name and pinned in
registry slot 0 recorded in extension_ref, the stack is empty again,
and the callback is connected. -/
theorem postSetup_eq (n : Nat) :
    postSetup n =
      { registry := [(0, LuaValue.extensionObj 0)],
        globals := [(GName.extensionG, LuaValue.extensionObj 0)],
        extension_ref := 0, nextRef := 1, nextId := 1,
        queued_emissions := some [], stack := [], listeners := n,
        emissions := [], connected := true } := rfl

/-- The registry slot of the freshly set-up state holds the singleton
allocated during setup, whose identity is 0. -/
theorem slotId_postSetup (n : Nat) : slotId (postSetup n) = some 0 := rfl

/-- Running a strict prefix of the statements of extension_class_setup:
used to reason about the points in time between its statements. -/
def setupUpTo (k : Nat) (s : SysState) : SysState :=
  (setupOrder.take k).foldl (fun t st => runSetupStep st t) s

/-! ### Claim theorems -/

/-- C1: for every sequence of N events (N ≥ 0) fired by the host via
page_created_cb before the flush call, the order in which listeners
observe the page-created signal after
extension_class_emit_pending_signals runs equals the order in which
the host fired the events (FIFO). -/
theorem C1_fifo_order (ps : List WebPage) (n : Nat) :
    ∃ s', runTrace (ps.map Act.fire ++ [Act.flush]) (postSetup n) = some s' ∧
      observedPayloads s' = ps := by
  have h1 := fires_buffered ps (postSetup n) [] rfl
  have h2 := flush_eq { postSetup n with queued_emissions := some ([] ++ ps) }
    ([] ++ ps) 0 rfl rfl
  refine ⟨{ postSetup n with
            queued_emissions := none
            emissions := ps.map (fun p => (0, p)) }, ?_, ?_⟩
  · rw [runTrace_append, h1, Option.some_bind, runTrace, runAct, h2,
      Option.some_bind, runTrace]
    rfl
  · simp [observedPayloads]

/-- C2: in every trace of host-fired events with one flush call in
between, each event fired via page_created_cb results in exactly one
page-created emission, never zero and never two, whether buffered and
replayed or delivered immediately: the delivered sequence is exactly
the fired sequence. -/
theorem C2_exactly_once (ps qs : List WebPage) (n : Nat) :
    ∃ s', runTrace (ps.map Act.fire ++ Act.flush :: qs.map Act.fire)
        (postSetup n) = some s' ∧
      observedPayloads s' = ps ++ qs := by
  have h1 := fires_buffered ps (postSetup n) [] rfl
  have h2 := flush_eq { postSetup n with queued_emissions := some ([] ++ ps) }
    ([] ++ ps) 0 rfl rfl
  have h3 := fires_direct 0 qs
    { { postSetup n with queued_emissions := some ([] ++ ps) } with
        queued_emissions := none
        emissions := { postSetup n with
          queued_emissions := some ([] ++ ps) }.emissions ++
            ([] ++ ps).map (fun p => (0, p)) } (by rfl) (by rfl)
  refine ⟨{ postSetup n with
            queued_emissions := none
            emissions := ps.map (fun p => (0, p)) ++ qs.map (fun p => (0, p)) },
          ?_, ?_⟩
  · rw [runTrace_append, h1, Option.some_bind, runTrace, runAct, h2,
      Option.some_bind, h3]
    rfl
  · simp [observedPayloads]

/-- C3: calling extension_class_emit_pending_signals a second time,
when the queue pointer is already NULL, performs zero additional
emissions and does not fail: the second call returns the state of the
first call unchanged, a NULL queue at drain time being treated as
already drained. -/
theorem C3_flush_idempotent (s s' : SysState)
    (h : extension_class_emit_pending_signals s = some s') :
    extension_class_emit_pending_signals s' = some s' := by
  have hq : s'.queued_emissions = none := by
    rw [extension_class_emit_pending_signals] at h
    cases hqs : s.queued_emissions with
    | none =>
      rw [hqs] at h
      cases h
      exact hqs
    | some q =>
      rw [hqs] at h
      rcases Option.map_eq_some'.mp h with ⟨t, _, ht⟩
      rw [← ht]
  exact flush_drained s' hq

/-- C4: once the queue pointer is NULL — the state every run of
extension_class_emit_pending_signals leaves behind — it stays NULL
across any further sequence of host events, flush calls and scripted
global writes, so the queue is never recreated or appended to, and
every subsequently fired event goes through the immediate
emit_page_created_signal path of page_created_cb instead of being
buffered. -/
theorem C4_direct_forever (s : SysState) (h : s.queued_emissions = none) :
    ∀ (acts : List Act) (s' : SysState), runTrace acts s = some s' →
      s'.queued_emissions = none ∧
      ∀ p, page_created_cb p s' = emit_page_created_signal p s' := by
  intro acts s' hrun
  have hq := (runTrace_preserves acts s s' hrun).2.2.1 h
  exact ⟨hq, fun p => cb_direct p s' hq⟩

/-- C5: page_created_cb with the queue present appends the payload to
the tail of the queue, raises no signal (the emission log is
untouched) and cannot fail; with the queue pointer NULL it invokes
emit_page_created_signal immediately on the payload. -/
theorem C5_adapter_dispatch (p : WebPage) (s : SysState) :
    (∀ q, s.queued_emissions = some q →
        page_created_cb p s = some { s with queued_emissions := some (q ++ [p]) }) ∧
    (s.queued_emissions = none →
        page_created_cb p s = emit_page_created_signal p s) :=
  ⟨fun q h => cb_buffer p s q h, fun h => cb_direct p s h⟩

/-- C6: replayed and direct delivery are the same function
application: draining a queue that holds payload p applies
emit_page_created_signal to p exactly as a direct-state
page_created_cb call does, so the observable emission for a given
payload is identical in the two modes. -/
theorem C6_same_delivery_path (p : WebPage) (s : SysState) :
    (s.queued_emissions = some [p] →
        extension_class_emit_pending_signals s =
          (emit_page_created_signal p s).map
            (fun t => { t with queued_emissions := none })) ∧
    (s.queued_emissions = none →
        page_created_cb p s = emit_page_created_signal p s) := by
  constructor
  · intro h
    cases hemit : emit_page_created_signal p s with
    | none => simp [extension_class_emit_pending_signals, h, emitList, hemit]
    | some t => simp [extension_class_emit_pending_signals, h, emitList, hemit]
  · exact cb_direct p s

/-- C7: emit_page_created_signal aborts fatally (the luaH_checkudata
assertion, modelled as none) whenever the registry slot referenced by
extension_ref does not hold a value of the extension class, and under
the precondition that the slot holds the live singleton it succeeds,
so the fatal branch is unreachable then. -/
theorem C7_fatal_on_bad_slot (p : WebPage) (s : SysState) :
    (slotId s = none → emit_page_created_signal p s = none) ∧
    (∀ i, slotId s = some i →
        emit_page_created_signal p s =
          some { s with emissions := s.emissions ++ [(i, p)] }) :=
  ⟨fun h => emit_of_no_slot p s h, fun i h => emit_of_slot p s i h⟩

/-- C8: every successful emit_page_created_signal call restores the
Lua value stack to its pre-call depth and contents: the pushes of the
registry slot and of the page object are exactly balanced by the
signal emission consuming its one argument with zero results and by
the final pop — and since the state quantifies over every listener
count, this holds regardless of how many listeners observed the
signal. -/
theorem C8_stack_restored (p : WebPage) (s s' : SysState)
    (h : emit_page_created_signal p s = some s') :
    s'.stack = s.stack := by
  rw [emit_eq] at h
  cases hs : slotId s with
  | none => rw [hs] at h; exact Option.noConfusion h
  | some i =>
    rw [hs] at h
    cases h
    rfl

/-- C9: extension_class_setup allocates exactly one extension object
(the allocation counter advances exactly once), pins it in the
registry slot recorded in extension_ref, and across every further
trace of host events, flush calls and scripted rebinding of globals —
the well-known name included — the slot still holds that object and
every emission targets it, so the object a listener observes is
reference-identical across any number of emissions and does not
depend on the global binding staying unmodified. -/
theorem C9_singleton_identity (n : Nat) (acts : List Act) (s' : SysState)
    (h : runTrace acts (postSetup n) = some s') :
    (postSetup n).nextId = (initState n).nextId + 1 ∧
    slotId (postSetup n) = some 0 ∧
    slotId s' = some 0 ∧
    ∀ e ∈ s'.emissions, e.1 = 0 := by
  obtain ⟨hr, he, _, hm⟩ := runTrace_preserves acts (postSetup n) s' h
  refine ⟨rfl, rfl, (slotId_congr (postSetup n) s' hr he).trans rfl, ?_⟩
  intro e hme
  rcases hm e hme with h1 | h1
  · rw [postSetup_eq] at h1
    exact absurd h1 (List.not_mem_nil e)
  · exact (Option.some.inj ((slotId_postSetup n).symm.trans h1)).symm

/-- C10: in extension_class_setup the deferred queue is created
(empty) strictly before the page-created callback is connected to the
host signal, so at every point of setup at which the callback is
connected the queue already exists, and an event delivered through
page_created_cb there finds the queue initialised and is buffered —
the emission log untouched — never dispatched against an
uninitialised queue pointer. -/
theorem C10_queue_before_connect (n k : Nat) (p : WebPage)
    (h : (setupUpTo k (initState n)).connected = true) :
    setupOrder.findIdx (fun st => decide (st = SetupStep.queueNew)) <
      setupOrder.findIdx (fun st => decide (st = SetupStep.connectSignal)) ∧
    ∃ q, (setupUpTo k (initState n)).queued_emissions = some q ∧
      page_created_cb p (setupUpTo k (initState n)) =
        some { setupUpTo k (initState n) with queued_emissions := some (q ++ [p]) } := by
  have h7 : 7 ≤ k := by
    by_contra hlt
    push_neg at hlt
    interval_cases k <;> exact Bool.noConfusion h
  have hts : setupUpTo k (initState n) = postSetup n := by
    unfold setupUpTo postSetup extension_class_setup
    rw [List.take_of_length_le (by simp [setupOrder]; omega)]
  refine ⟨by decide, [], ?_, ?_⟩
  · rw [hts]; rfl
  · rw [hts]
    exact cb_buffer p (postSetup n) [] rfl

/-! ### Concrete states and witnesses -/

/-- The post-setup state with one bound listener. -/
def wGood : SysState := postSetup 1

/-- The post-setup state after its queue has been drained. -/
def wDrained : SysState := { postSetup 1 with queued_emissions := none }

/-- A corrupted state whose registry slot no longer holds the
singleton. -/
def wBad : SysState := { postSetup 1 with registry := [] }

/-- The drained state after the host fired payload 5. -/
def wAfterFire : SysState := { wDrained with emissions := [(0, 5)] }

/-- A concrete action trace: scripting code rebinds the well-known
global, one event is buffered, the flush replays it, one more event is
delivered directly. -/
def wTrace : List Act :=
  [Act.setG GName.extensionG LuaValue.nilv, Act.fire 3, Act.flush, Act.fire 4]

/-- The state wTrace ends in when started from postSetup 2. -/
def wFinal : SysState :=
  { registry := [(0, LuaValue.extensionObj 0)]
    globals := [(GName.extensionG, LuaValue.nilv),
                (GName.extensionG, LuaValue.extensionObj 0)]
    extension_ref := 0
    nextRef := 1
    nextId := 1
    queued_emissions := none
    stack := []
    listeners := 2
    emissions := [(0, 3), (0, 4)]
    connected := true }

/-- Witness for C3 at a concrete input: after the flush of the
post-setup state, a second flush returns its state unchanged. -/
theorem C3_flush_idempotent_witness :
    extension_class_emit_pending_signals wDrained = some wDrained :=
  C3_flush_idempotent wGood wDrained (by decide)

/-- Witness for C4 at a concrete input: after an event fired in the
drained state, the queue is still absent and the next event goes
through the immediate path. -/
theorem C4_direct_forever_witness :
    wAfterFire.queued_emissions = none ∧
    page_created_cb 6 wAfterFire = emit_page_created_signal 6 wAfterFire := by
  have h := C4_direct_forever wDrained (by decide) [Act.fire 5] wAfterFire (by decide)
  exact ⟨h.1, h.2 6⟩

/-- Witness for C5 at a concrete input: payload 7 is appended to the
empty queue of the post-setup state. -/
theorem C5_adapter_dispatch_witness :
    page_created_cb 7 wGood = some { wGood with queued_emissions := some [7] } :=
  (C5_adapter_dispatch 7 wGood).1 [] (by rfl)

/-- Witness for C6 at a concrete input: flushing a queue holding
payload 3 is the emit_page_created_signal application on 3 followed by
clearing the queue pointer. -/
theorem C6_same_delivery_path_witness :
    extension_class_emit_pending_signals { wGood with queued_emissions := some [3] } =
      (emit_page_created_signal 3 { wGood with queued_emissions := some [3] }).map
        (fun t => { t with queued_emissions := none }) :=
  (C6_same_delivery_path 3 { wGood with queued_emissions := some [3] }).1 (by rfl)

/-- Witness for C7 at concrete inputs: the emission fails fatally on
the corrupted registry and succeeds on the intact one. -/
theorem C7_fatal_on_bad_slot_witness :
    emit_page_created_signal 4 wBad = none ∧
    emit_page_created_signal 4 wGood = some { wGood with emissions := [(0, 4)] } :=
  ⟨(C7_fatal_on_bad_slot 4 wBad).1 (by rfl),
   (C7_fatal_on_bad_slot 4 wGood).2 0 (by rfl)⟩

/-- Witness for C8 at a concrete input: emitting payload 9 from the
post-setup state leaves the stack as it was. -/
theorem C8_stack_restored_witness :
    ({ wGood with emissions := [(0, 9)] }).stack = wGood.stack :=
  C8_stack_restored 9 wGood { wGood with emissions := [(0, 9)] } (by decide)

/-- Witness for C9 at a concrete input: after the trace wTrace the
registry slot still holds the singleton allocated at setup. -/
theorem C9_singleton_identity_witness :
    slotId wFinal = some 0 :=
  (C9_singleton_identity 2 wTrace wFinal (by decide)).2.2.1

/-- Witness for C10 at a concrete input: after all seven setup
statements the callback is connected, the queue exists and payload 8
is buffered. -/
theorem C10_queue_before_connect_witness :
    setupOrder.findIdx (fun st => decide (st = SetupStep.queueNew)) <
      setupOrder.findIdx (fun st => decide (st = SetupStep.connectSignal)) ∧
    ∃ q, (setupUpTo 7 (initState 1)).queued_emissions = some q ∧
      page_created_cb 8 (setupUpTo 7 (initState 1)) =
        some { setupUpTo 7 (initState 1) with queued_emissions := some (q ++ [8]) } :=
  C10_queue_before_connect 1 7 8 (by rfl)
